import Mathlib

/-!
Shallow embedding of the incremental import-discovery engine of
`ember-auto-import` (file `packages/ember-auto-import/ts/analyzer.ts`).

The engine maintains, per broccoli tree, a map from file path to the
ordered sequence of `Import` records found in that file, plus a memoized
flattened aggregate (`modules`).  Source text is parsed by one of two
backends (babel or swc) and the resulting AST is walked to extract import
records.  JavaScript exceptions are modelled with `Except JsError`.
-/

namespace EmberAutoImport

/-- TreeType from analyzer.ts: the logical source tree a file belongs to. -/
inductive TreeType where
  | app
  | addon
  | addonTemplates
  | addonTestSupport
  | styles
  | templates
  | test
deriving DecidableEq, Repr

/-- The slice of the external Package descriptor that the analyzer reads:
its name, which parser backend to use, and the babel major version. -/
structure Package where
  name : String
  useSwcParser : Bool
  babelMajorVersion : Nat
deriving DecidableEq, Repr

/-- Import record: the TypeScript union `LiteralImport | TemplateImport`.
`literal` carries a `specifier`; `template` carries `cookedQuasis` and
`expressionNameHints`.  Both share `path`, `package`, `isDynamic`,
`treeType`. -/
inductive Import where
  | literal (specifier : String) (path : String) (package : Package)
      (isDynamic : Bool) (treeType : Option TreeType)
  | template (cookedQuasis : List String) (expressionNameHints : List (Option String))
      (path : String) (package : Package) (isDynamic : Bool) (treeType : Option TreeType)
deriving DecidableEq, Repr

/-- Shared `isDynamic` field of both variants. -/
def Import.isDynamic : Import → Bool
  | .literal _ _ _ d _ => d
  | .template _ _ _ _ d _ => d

/-- True exactly on the `LiteralImport` variant (a `specifier` field is present). -/
def Import.isLiteralVariant : Import → Bool
  | .literal _ _ _ _ _ => true
  | .template _ _ _ _ _ _ => false

/-- True exactly on the `TemplateImport` variant (`cookedQuasis` and
`expressionNameHints` fields are present). -/
def Import.isTemplateVariant : Import → Bool
  | .literal _ _ _ _ _ => false
  | .template _ _ _ _ _ _ => true

/-- Shape invariant of a record: on the template variant,
`cookedQuasis.length = expressionNameHints.length + 1`. -/
def templateShapeOk : Import → Bool
  | .literal _ _ _ _ _ => true
  | .template quasis hints _ _ _ _ => quasis.length == hints.length + 1

/-- A thrown JavaScript error: its `name` (class) and `message`. -/
structure JsError where
  name : String
  message : String
deriving DecidableEq, Repr

/-- The usage error thrown by `processImportCallExpression` (and by the swc
visitor) when the call argument is neither a string literal nor a template
literal. -/
def importCallUsageError : JsError :=
  { name := "Error"
    message := "import() is only allowed to contain string literals or template string literals" }

/-- The TypeError JavaScript raises when the code reads a field of
`args[0]` and the argument list is empty.  The analyzer assumes the
grammar guarantees exactly one argument, so this case is unreachable on
parser-produced ASTs. -/
def undefinedReadError (field : String) : JsError :=
  { name := "TypeError"
    message := "Cannot read properties of undefined (reading \x27" ++ field ++ "\x27)" }

/-! ### The Import Store: a JavaScript `Map` from path to import sequence,
modelled as an insertion-ordered association list. -/

abbrev PathMap := List (String × List Import)

/-- `Map.prototype.get`: first (and, under the Map invariant, only) binding. -/
def pathsGet : PathMap → String → Option (List Import)
  | [], _ => none
  | (k, v) :: rest, key => if k = key then some v else pathsGet rest key

/-- `Map.prototype.set`: replace in place when the key is present, else
append at the end (insertion order preserved). -/
def pathsSet : PathMap → String → List Import → PathMap
  | [], key, val => [(key, val)]
  | (k, v) :: rest, key, val =>
    if k = key then (key, val) :: rest else (k, v) :: pathsSet rest key val

/-- `Map.prototype.delete`: remove the binding for the key. -/
def pathsDelete : PathMap → String → PathMap
  | [], _ => []
  | (k, v) :: rest, key => if k = key then rest else (k, v) :: pathsDelete rest key

/-- Mutable state of an `Analyzer` instance: the memoized aggregate
(`modules`, `none` encodes the invalidated `null`) and the per-file map
(`paths`). -/
structure AnalyzerState where
  modules : Option (List Import)
  paths : PathMap
deriving DecidableEq, Repr

/-- Field initializers of the Analyzer class: `modules = []`, empty map. -/
def initialState : AnalyzerState := { modules := some [], paths := [] }

/-- Getter `imports`: returns the memoized flattening, recomputing and
caching it when `modules` is `null`. -/
def importsGetter (s : AnalyzerState) : List Import × AnalyzerState :=
  match s.modules with
  | some m => (m, s)
  | none =>
    let m := (s.paths.map Prod.snd).flatten
    (m, { s with modules := some m })

/-- Method `removeImports`: when the path is present, delete its entry and
invalidate the aggregate cache exactly when the entry was non-empty. -/
def removeImports (s : AnalyzerState) (relativePath : String) : AnalyzerState :=
  match pathsGet s.paths relativePath with
  | some imports =>
    { modules := if imports.length > 0 then none else s.modules
      paths := pathsDelete s.paths relativePath }
  | none => s

/-! ### Babel AST shapes as read by the extractor. -/

/-- Babel expression shapes the extractor inspects.  A template literal
carries the cooked values of its quasis and its interpolated expressions. -/
inductive BExpr where
  | identifier (name : String)
  | stringLiteral (value : String)
  | templateLiteral (cookedQuasis : List String) (expressions : List BExpr)
  | otherExpr

/-- Function `inferNameHint`: the name of a bare identifier, else nothing. -/
def inferNameHint : BExpr → Option String
  | .identifier name => some name
  | _ => none

/-- Callee shapes the babel CallExpression visitor distinguishes: the
reserved `Import` node of a dynamic-import call, an identifier (with the
result of the scope query `referencesImport("@embroider/macros",
"importSync")` performed by @babel/traverse), or anything else. -/
inductive BCallee where
  | importKeyword
  | identifier (name : String) (referencesMacrosImportSync : Bool)
  | otherCallee
deriving DecidableEq, Repr

/-- Babel AST nodes the traversal reacts to; `otherNode` stands for any
other node, whose children are traversed recursively. -/
inductive BabelNode where
  | callExpression (callee : BCallee) (args : List BExpr)
  | importDeclaration (source : String)
  | exportNamedDeclaration (source : Option String)
  | otherNode (children : List BabelNode)

/-- Method `processImportCallExpression`: turn the argument list of a
recognized call-form import into one Import record, or throw.  The code
reads `args[0]` unconditionally (the grammar guarantees one argument). -/
def processImportCallExpression (pack : Package) (treeType : Option TreeType)
    (relativePath : String) (args : List BExpr) (isDynamic : Bool) :
    Except JsError Import :=
  match args with
  | [] => .error (undefinedReadError "type")
  | argument :: _ =>
    match argument with
    | .stringLiteral value =>
      .ok (.literal value relativePath pack isDynamic treeType)
    | .templateLiteral quasis exprs =>
      if quasis.length = 1 then
        .ok (.literal (quasis.headD "") relativePath pack isDynamic treeType)
      else
        .ok (.template quasis (exprs.map inferNameHint) relativePath pack isDynamic treeType)
    | _ => .error importCallUsageError

mutual

/-- The babel traversal of `parseImports`: visit a node, emitting records
for CallExpression / ImportDeclaration / ExportNamedDeclaration, and
recurse into the children of other nodes. -/
def babelVisit (pack : Package) (treeType : Option TreeType) (relativePath : String) :
    BabelNode → Except JsError (List Import)
  | .callExpression callee args =>
    match callee with
    | .importKeyword =>
      (processImportCallExpression pack treeType relativePath args true).map (fun i => [i])
    | .identifier _ refs =>
      if refs then
        (processImportCallExpression pack treeType relativePath args false).map (fun i => [i])
      else .ok []
    | .otherCallee => .ok []
  | .importDeclaration source =>
    .ok [.literal source relativePath pack false treeType]
  | .exportNamedDeclaration source =>
    match source with
    | some src => .ok [.literal src relativePath pack false treeType]
    | none => .ok []
  | .otherNode children => babelVisitList pack treeType relativePath children

/-- Traversal of a list of sibling nodes, in order. -/
def babelVisitList (pack : Package) (treeType : Option TreeType) (relativePath : String) :
    List BabelNode → Except JsError (List Import)
  | [] => .ok []
  | n :: ns => do
    let a ← babelVisit pack treeType relativePath n
    let b ← babelVisitList pack treeType relativePath ns
    .ok (a ++ b)

end

/-- Extraction over a whole babel File (its top-level node list). -/
def babelExtractFile (pack : Package) (treeType : Option TreeType) (relativePath : String)
    (file : List BabelNode) : Except JsError (List Import) :=
  babelVisitList pack treeType relativePath file

/-! ### Swc AST shapes as read by the extractor. -/

/-- Swc expression shapes the extractor inspects; identifiers carry their
`value` field. -/
inductive SwcExpr where
  | identifier (value : String)
  | stringLiteral (value : String)
  | templateLiteral (cookedQuasis : List String) (expressions : List SwcExpr)
  | otherExpr

/-- Function `swcInferNameHint`: the `value` of a bare identifier, else
nothing. -/
def swcInferNameHint : SwcExpr → Option String
  | .identifier value => some value
  | _ => none

/-- Callee shapes the swc `visitCallExpression` distinguishes: an
identifier (with its `value`), a MemberExpression (with `object.callee?.value`
and the `arguments` of the object call, which is what the code reads when
the object is an import call), or anything else. -/
inductive SwcCallee where
  | identifier (value : String)
  | memberExpression (objectCalleeValue : Option String) (objectArguments : List SwcExpr)
  | otherCallee

/-- Swc AST nodes.  The three overridden visitor methods return their node
without visiting its children, so children only matter under `otherNode`,
where the default visitor recurses. -/
inductive SwcNode where
  | callExpression (callee : SwcCallee) (args : List SwcExpr)
  | importDeclaration (source : String)
  | exportNamedDeclaration (source : Option String)
  | otherNode (children : List SwcNode)

/-- The argument-processing body of the swc `visitCallExpression` (the
`switch` over `argument.expression.type`).  Every record it pushes has
`isDynamic: true` hard-coded.  The code reads `arguments[0].expression`
unconditionally. -/
def swcProcessImportArguments (pack : Package) (treeType : Option TreeType)
    (relativePath : String) (args : List SwcExpr) : Except JsError Import :=
  match args with
  | [] => .error (undefinedReadError "expression")
  | argument :: _ =>
    match argument with
    | .stringLiteral value =>
      .ok (.literal value relativePath pack true treeType)
    | .templateLiteral quasis exprs =>
      if quasis.length = 1 then
        .ok (.literal (quasis.headD "") relativePath pack true treeType)
      else
        .ok (.template quasis (exprs.map swcInferNameHint) relativePath pack true treeType)
    | _ => .error importCallUsageError

/-- Method `visitCallExpression` of the swc `ImportAnalyzer`: recognize
`import(...)` either directly (identifier callee with value `import`) or
through a member expression whose object is an import call; anything else
(including an `importSync` identifier) pushes nothing. -/
def swcVisitCallExpression (pack : Package) (treeType : Option TreeType)
    (relativePath : String) (callee : SwcCallee) (args : List SwcExpr) :
    Except JsError (List Import) :=
  let calleeArguments : Option (List SwcExpr) :=
    match callee with
    | .memberExpression objectCalleeValue objectArguments =>
      if objectCalleeValue = some "import" then some objectArguments else none
    | .identifier value => if value = "import" then some args else none
    | .otherCallee => none
  match calleeArguments with
  | none => .ok []
  | some theArgs =>
    (swcProcessImportArguments pack treeType relativePath theArgs).map (fun i => [i])

mutual

/-- The swc `ImportAnalyzer` visitor: CallExpression, ImportDeclaration
and ExportNamedDeclaration are handled (without recursing into their
children); all other nodes are visited recursively by the base visitor. -/
def swcVisit (pack : Package) (treeType : Option TreeType) (relativePath : String) :
    SwcNode → Except JsError (List Import)
  | .callExpression callee args =>
    swcVisitCallExpression pack treeType relativePath callee args
  | .importDeclaration source =>
    .ok [.literal source relativePath pack false treeType]
  | .exportNamedDeclaration source =>
    match source with
    | some src => .ok [.literal src relativePath pack false treeType]
    | none => .ok []
  | .otherNode children => swcVisitList pack treeType relativePath children

/-- Visit a list of sibling swc nodes, in order. -/
def swcVisitList (pack : Package) (treeType : Option TreeType) (relativePath : String) :
    List SwcNode → Except JsError (List Import)
  | [] => .ok []
  | n :: ns => do
    let a ← swcVisit pack treeType relativePath n
    let b ← swcVisitList pack treeType relativePath ns
    .ok (a ++ b)

end

/-- Extraction over a whole swc Program (its top-level node list). -/
def swcExtractProgram (pack : Package) (treeType : Option TreeType) (relativePath : String)
    (program : List SwcNode) : Except JsError (List Import) :=
  swcVisitList pack treeType relativePath program

/-! ### The parse function and parseImports / updateImports / setupParser. -/

/-- Union type `File | Program` returned by the installed parse function. -/
inductive Ast where
  | babel (file : List BabelNode)
  | swc (program : List SwcNode)

/-- The unchecked TypeScript cast `ast as File`.  With a coherently
installed parser this case split is never exercised on the wrong variant. -/
def Ast.asBabelFile : Ast → List BabelNode
  | .babel file => file
  | .swc _ => []

/-- The unchecked TypeScript cast `ast as Program`. -/
def Ast.asSwcProgram : Ast → List SwcNode
  | .swc program => program
  | .babel _ => []

/-- An installed parse function: source text to AST, possibly throwing. -/
abbrev ParseFn := String → Except JsError Ast

/-- Method `parseImports`: parse the source, swallowing only syntax-class
errors (which yield the empty sequence); then walk the AST with the
backend chosen by `pack.useSwcParser`. -/
def parseImports (pack : Package) (treeType : Option TreeType) (parse : ParseFn)
    (relativePath source : String) : Except JsError (List Import) :=
  match parse source with
  | .error err =>
    if err.name ≠ "SyntaxError" then .error err else .ok []
  | .ok ast =>
    if pack.useSwcParser then
      swcExtractProgram pack treeType relativePath ast.asSwcProgram
    else
      babelExtractFile pack treeType relativePath ast.asBabelFile

/-- Method `updateImports`: parse and extract, then replace the entry and
invalidate the aggregate cache only when the new sequence is not
structurally equal (`lodash.isEqual`) to the stored one.  A thrown error
leaves the state with the caller. -/
def updateImports (pack : Package) (treeType : Option TreeType) (parse : ParseFn)
    (s : AnalyzerState) (relativePath source : String) : Except JsError AnalyzerState :=
  match parseImports pack treeType parse relativePath source with
  | .error e => .error e
  | .ok newImports =>
    if pathsGet s.paths relativePath = some newImports then .ok s
    else .ok { paths := pathsSet s.paths relativePath newImports, modules := none }

/-- Message of the error thrown by `setupParser` for an unsupported babel
major version. -/
def babelVersionErrorMessage (pack : Package) : String :=
  "don\x27t know how to setup a parser for Babel version " ++
    toString pack.babelMajorVersion ++ " (used by " ++ pack.name ++ ")"

/-- Method `setupParser`: keep an already-installed parse function;
otherwise install the swc parser when selected, the babel parser for major
version 7, and throw for any other babel version.  The returned value is
the `this.parse` field after the call. -/
def setupParser (pack : Package) (swcParse babelParse : ParseFn)
    (current : Option ParseFn) : Except JsError (Option ParseFn) :=
  match current with
  | some p => .ok (some p)
  | none =>
    if pack.useSwcParser then .ok (some swcParse)
    else if pack.babelMajorVersion = 7 then .ok (some babelParse)
    else .error { name := "Error", message := babelVersionErrorMessage pack }

/-! ### Parser well-formedness guarantees on ASTs.

A parser never produces a template literal whose quasi count differs from
its expression count plus one; extraction relies on this when it reads
`quasis[0]` under the `quasis.length === 1` guard. -/

/-- A call argument is well formed when any template literal in argument
position has one more quasi than interpolated expressions. -/
def wfArgument : BExpr → Bool
  | .templateLiteral quasis exprs => quasis.length == exprs.length + 1
  | _ => true

mutual

/-- Well-formedness of a babel node: call arguments are well formed, and
children of other nodes are well formed recursively. -/
def wfBabelNode : BabelNode → Bool
  | .callExpression _ args => args.all wfArgument
  | .otherNode children => wfBabelNodes children
  | _ => true

/-- Well-formedness of a list of babel nodes. -/
def wfBabelNodes : List BabelNode → Bool
  | [] => true
  | n :: ns => wfBabelNode n && wfBabelNodes ns

end

/-- A swc call argument is well formed when any template literal in
argument position has one more quasi than interpolated expressions. -/
def wfSwcArgument : SwcExpr → Bool
  | .templateLiteral quasis exprs => quasis.length == exprs.length + 1
  | _ => true

/-- Well-formedness of a swc callee: the arguments of a member-expression
object call are well formed. -/
def wfSwcCallee : SwcCallee → Bool
  | .memberExpression _ objectArguments => objectArguments.all wfSwcArgument
  | _ => true

mutual

/-- Well-formedness of a swc node. -/
def wfSwcNode : SwcNode → Bool
  | .callExpression callee args => wfSwcCallee callee && args.all wfSwcArgument
  | .otherNode children => wfSwcNodes children
  | _ => true

/-- Well-formedness of a list of swc nodes. -/
def wfSwcNodes : List SwcNode → Bool
  | [] => true
  | n :: ns => wfSwcNode n && wfSwcNodes ns

end

/-! ### Concrete fixtures used by the closed witness theorems. -/

/-- A package using the babel backend, version 7. -/
def babelPack : Package := { name := "app-template", useSwcParser := false, babelMajorVersion := 7 }

/-- A package using the swc backend. -/
def swcPack : Package := { name := "app-template", useSwcParser := true, babelMajorVersion := 7 }

/-- A package selecting the babel backend with unsupported major version 6. -/
def babel6Pack : Package := { name := "legacy-app", useSwcParser := false, babelMajorVersion := 6 }

/-- A parse function returning a file with a single import declaration. -/
def lodashParse : ParseFn := fun _ => .ok (.babel [.importDeclaration "lodash"])

/-- A parse function returning an empty babel file. -/
def emptyBabelParse : ParseFn := fun _ => .ok (.babel [])

/-- A parse function that always throws a syntax-class error. -/
def synErrParse : ParseFn := fun _ => .error { name := "SyntaxError", message := "Unexpected token" }

/-- A parse function that always throws a non-syntax error. -/
def rangeErrParse : ParseFn :=
  fun _ => .error { name := "RangeError", message := "Maximum call stack size exceeded" }

/-- The record extracted by `lodashParse` on file sample.js. -/
def lodashImport : Import := .literal "lodash" "sample.js" babelPack false none

/-! ### Lemmas about the path map. -/

/-- Lookup misses when the key is absent from the map. -/
theorem pathsGet_eq_none (l : PathMap) (key : String) (h : key ∉ l.map Prod.fst) :
    pathsGet l key = none := by
  induction l with
  | nil => rfl
  | cons kv rest ih =>
    obtain ⟨k, v⟩ := kv
    simp only [List.map_cons, List.mem_cons, not_or] at h
    have hk : ¬ (k = key) := fun e => h.1 e.symm
    simpa [pathsGet, hk] using ih h.2

/-- Deleting a key removes its binding (under the Map invariant of
distinct keys). -/
theorem pathsGet_pathsDelete_self (l : PathMap) (key : String)
    (h : (l.map Prod.fst).Nodup) : pathsGet (pathsDelete l key) key = none := by
  induction l with
  | nil => rfl
  | cons kv rest ih =>
    obtain ⟨k, v⟩ := kv
    simp only [List.map_cons, List.nodup_cons] at h
    by_cases hk : k = key
    · subst hk
      simpa [pathsDelete] using pathsGet_eq_none rest k h.1
    · simpa [pathsDelete, hk, pathsGet] using ih h.2

/-- Setting a key makes lookup return the new value. -/
theorem pathsGet_pathsSet_self (l : PathMap) (key : String) (val : List Import) :
    pathsGet (pathsSet l key val) key = some val := by
  induction l with
  | nil => simp [pathsSet, pathsGet]
  | cons kv rest ih =>
    obtain ⟨k, v⟩ := kv
    by_cases hk : k = key
    · simp [pathsSet, hk, pathsGet]
    · simp [pathsSet, hk, pathsGet, ih]

/-! ### Claim theorems. -/

/-- C2: when the parse function throws a syntax-class error, `parseImports`
returns the empty Import sequence (the build continues); when it throws any
other error, that error propagates unchanged from `parseImports` and from
`updateImports` to the caller of the update operation. -/
theorem parseImports_error_policy (pack : Package) (treeType : Option TreeType)
    (parse : ParseFn) (relativePath source : String) (e : JsError)
    (hthrow : parse source = .error e) :
    (e.name = "SyntaxError" →
      parseImports pack treeType parse relativePath source = .ok [])
    ∧ (e.name ≠ "SyntaxError" →
      parseImports pack treeType parse relativePath source = .error e
      ∧ ∀ s : AnalyzerState,
          updateImports pack treeType parse s relativePath source = .error e) := by
  constructor
  · intro hname
    simp [parseImports, hthrow, hname]
  · intro hname
    have hp : parseImports pack treeType parse relativePath source = .error e := by
      simp [parseImports, hthrow, hname]
    exact ⟨hp, fun s => by simp [updateImports, hp]⟩

/-- Witness for C2 at a concrete syntax-erroring parse. -/
theorem parseImports_error_policy_witness :
    parseImports babelPack none synErrParse "sample.js" "%%%" = .ok [] :=
  (parseImports_error_policy babelPack none synErrParse "sample.js" "%%%"
    { name := "SyntaxError", message := "Unexpected token" } rfl).1 rfl

/-- C3: when the parsed sequence is structurally equal to the stored one,
the upsert leaves the state untouched (same entry, same memoized
aggregate); when it differs or the path is absent, the entry is replaced
with the new sequence and the aggregate cache is invalidated. -/
theorem updateImports_equality_gated (pack : Package) (treeType : Option TreeType)
    (parse : ParseFn) (s : AnalyzerState) (relativePath source : String)
    (newImports : List Import)
    (hparse : parseImports pack treeType parse relativePath source = .ok newImports) :
    (pathsGet s.paths relativePath = some newImports →
      updateImports pack treeType parse s relativePath source = .ok s)
    ∧ (pathsGet s.paths relativePath ≠ some newImports →
      updateImports pack treeType parse s relativePath source =
        .ok { paths := pathsSet s.paths relativePath newImports, modules := none }
      ∧ pathsGet (pathsSet s.paths relativePath newImports) relativePath = some newImports) := by
  constructor
  · intro h
    simp [updateImports, hparse, h]
  · intro h
    exact ⟨by simp [updateImports, hparse, h], pathsGet_pathsSet_self _ _ _⟩

/-- Witness for C3: re-submitting the already-stored sequence leaves the
state untouched. -/
theorem updateImports_equality_gated_witness :
    updateImports babelPack none lodashParse
      { modules := some [lodashImport], paths := [("sample.js", [lodashImport])] }
      "sample.js" "import x from \x27lodash\x27" =
      .ok { modules := some [lodashImport], paths := [("sample.js", [lodashImport])] } :=
  (updateImports_equality_gated babelPack none lodashParse
    { modules := some [lodashImport], paths := [("sample.js", [lodashImport])] }
    "sample.js" "import x from \x27lodash\x27" [lodashImport] rfl).1 rfl

/-- C4: evicting a present path deletes its entry; the aggregate cache is
set to null exactly when the removed entry was non-empty, and is left
untouched when the removed entry was empty. -/
theorem removeImports_eviction (s : AnalyzerState) (relativePath : String)
    (imports : List Import) (hmem : pathsGet s.paths relativePath = some imports)
    (hnodup : (s.paths.map Prod.fst).Nodup) :
    (removeImports s relativePath).paths = pathsDelete s.paths relativePath
    ∧ pathsGet (removeImports s relativePath).paths relativePath = none
    ∧ (removeImports s relativePath).modules =
        (if imports.length > 0 then none else s.modules) := by
  have h1 : removeImports s relativePath =
      { modules := if imports.length > 0 then none else s.modules
        paths := pathsDelete s.paths relativePath } := by
    simp [removeImports, hmem]
  rw [h1]
  exact ⟨rfl, pathsGet_pathsDelete_self _ _ hnodup, rfl⟩

/-- Witness for C4: evicting a path holding one import deletes the entry
and invalidates the cache. -/
theorem removeImports_eviction_witness :
    (removeImports { modules := some [lodashImport], paths := [("sample.js", [lodashImport])] }
        "sample.js").paths = pathsDelete [("sample.js", [lodashImport])] "sample.js"
    ∧ pathsGet (removeImports
        { modules := some [lodashImport], paths := [("sample.js", [lodashImport])] }
        "sample.js").paths "sample.js" = none
    ∧ (removeImports { modules := some [lodashImport], paths := [("sample.js", [lodashImport])] }
        "sample.js").modules = (if ([lodashImport].length > 0) then none else some [lodashImport]) :=
  removeImports_eviction
    { modules := some [lodashImport], paths := [("sample.js", [lodashImport])] }
    "sample.js" [lodashImport] rfl (by simp)

/-- C8 counterexample: creating a fresh entry whose import list is empty
does invalidate the cached aggregate.  Starting from the initial state
(cache `some []`), updating a new path with a source that parses to an
empty file stores an empty entry and sets `modules` to `none`. -/
theorem creating_empty_entry_invalidates :
    initialState.modules = some []
    ∧ updateImports babelPack none emptyBabelParse initialState "sample.js" "" =
        .ok { modules := none, paths := [("sample.js", [])] } :=
  ⟨rfl, rfl⟩

/-- C8 (amended): the memoized aggregate is invalidated exactly when an
entry is created or replaced by the upsert with a sequence that differs
from the stored one (this includes creating a new entry with an empty
list), or deleted by eviction while holding a non-empty list; an upsert
with an identical sequence, an eviction of an empty entry, and an eviction
of an absent path leave the cached aggregate untouched. -/
theorem modules_invalidation_policy (pack : Package) (treeType : Option TreeType)
    (parse : ParseFn) (s : AnalyzerState) (relativePath source : String)
    (newImports imports : List Import) :
    (parseImports pack treeType parse relativePath source = .ok newImports →
      pathsGet s.paths relativePath = some newImports →
      updateImports pack treeType parse s relativePath source = .ok s)
    ∧ (parseImports pack treeType parse relativePath source = .ok newImports →
      pathsGet s.paths relativePath ≠ some newImports →
      updateImports pack treeType parse s relativePath source =
        .ok { paths := pathsSet s.paths relativePath newImports, modules := none })
    ∧ (pathsGet s.paths relativePath = some imports →
      (removeImports s relativePath).modules =
        (if imports.length > 0 then none else s.modules))
    ∧ (pathsGet s.paths relativePath = none → removeImports s relativePath = s) := by
  refine ⟨?_, ?_, ?_, ?_⟩
  · intro hparse h
    simp [updateImports, hparse, h]
  · intro hparse h
    simp [updateImports, hparse, h]
  · intro h
    simp [removeImports, h]
  · intro h
    simp [removeImports, h]

/-- Witness for C8 at a concrete replacement: storing a differing sequence
invalidates the cache. -/
theorem modules_invalidation_policy_witness :
    updateImports babelPack none lodashParse
      { modules := some [], paths := [] } "sample.js" "import x from \x27lodash\x27" =
      .ok { paths := pathsSet [] "sample.js" [lodashImport], modules := none } :=
  (modules_invalidation_policy babelPack none lodashParse
    { modules := some [], paths := [] } "sample.js" "import x from \x27lodash\x27"
    [lodashImport] []).2.1 rfl (by simp [pathsGet])

/-! ### Lemmas about call-form extraction. -/

/-- The `isDynamic` flag of a record built by `processImportCallExpression`
is the flag that was passed in. -/
theorem processImportCallExpression_isDynamic (pack : Package) (treeType : Option TreeType)
    (relativePath : String) (args : List BExpr) (d : Bool) (i : Import)
    (h : processImportCallExpression pack treeType relativePath args d = .ok i) :
    i.isDynamic = d := by
  cases args with
  | nil => simp [processImportCallExpression] at h
  | cons argument rest =>
    cases argument with
    | identifier name => simp [processImportCallExpression] at h
    | otherExpr => simp [processImportCallExpression] at h
    | stringLiteral value =>
      simp only [processImportCallExpression, Except.ok.injEq] at h
      subst h; rfl
    | templateLiteral quasis exprs =>
      simp only [processImportCallExpression] at h
      split at h <;> (simp only [Except.ok.injEq] at h; subst h; rfl)

/-- Every record pushed by the swc call-argument processing has
`isDynamic = true`. -/
theorem swcProcessImportArguments_isDynamic (pack : Package) (treeType : Option TreeType)
    (relativePath : String) (args : List SwcExpr) (i : Import)
    (h : swcProcessImportArguments pack treeType relativePath args = .ok i) :
    i.isDynamic = true := by
  cases args with
  | nil => simp [swcProcessImportArguments] at h
  | cons argument rest =>
    cases argument with
    | identifier value => simp [swcProcessImportArguments] at h
    | otherExpr => simp [swcProcessImportArguments] at h
    | stringLiteral value =>
      simp only [swcProcessImportArguments, Except.ok.injEq] at h
      subst h; rfl
    | templateLiteral quasis exprs =>
      simp only [swcProcessImportArguments] at h
      split at h <;> (simp only [Except.ok.injEq] at h; subst h; rfl)

/-- C1 counterexample: under the swc backend a call to `importSync` is not
recognized at all — extraction yields no Import record, rather than one
with `isDynamic = false`. -/
theorem swc_importSync_not_recognized :
    swcExtractProgram swcPack none "sample.js"
      [.callExpression (.identifier "importSync") [.stringLiteral "x"]] = .ok [] :=
  rfl

/-- C1 (amended): under the babel backend, a dynamic-import-keyword call
yields records with `isDynamic = true` and a call to an identifier
referencing `importSync` from `@embroider/macros` yields records with
`isDynamic = false`; under the swc backend, a recognized dynamic-import
call yields records with `isDynamic = true`, but a call to any identifier
other than `import` — in particular `importSync` — is not recognized and
yields no record. -/
theorem callForm_isDynamic_by_backend (pack : Package) (treeType : Option TreeType)
    (relativePath : String) :
    (∀ (args : List BExpr) (imps : List Import),
      babelVisit pack treeType relativePath (.callExpression .importKeyword args) = .ok imps →
      ∀ i ∈ imps, i.isDynamic = true)
    ∧ (∀ (name : String) (args : List BExpr) (imps : List Import),
      babelVisit pack treeType relativePath
          (.callExpression (.identifier name true) args) = .ok imps →
      ∀ i ∈ imps, i.isDynamic = false)
    ∧ (∀ (args : List SwcExpr) (imps : List Import),
      swcVisit pack treeType relativePath
          (.callExpression (.identifier "import") args) = .ok imps →
      ∀ i ∈ imps, i.isDynamic = true)
    ∧ (∀ (value : String) (args : List SwcExpr), value ≠ "import" →
      swcVisit pack treeType relativePath (.callExpression (.identifier value) args) = .ok []) := by
  refine ⟨?_, ?_, ?_, ?_⟩
  · intro args imps h i hi
    cases hp : processImportCallExpression pack treeType relativePath args true with
    | error e => simp [babelVisit, Except.map, hp] at h
    | ok j =>
      simp [babelVisit, Except.map, hp] at h
      subst h
      simp at hi
      subst hi
      exact processImportCallExpression_isDynamic _ _ _ _ _ _ hp
  · intro name args imps h i hi
    cases hp : processImportCallExpression pack treeType relativePath args false with
    | error e => simp [babelVisit, Except.map, hp] at h
    | ok j =>
      simp [babelVisit, Except.map, hp] at h
      subst h
      simp at hi
      subst hi
      exact processImportCallExpression_isDynamic _ _ _ _ _ _ hp
  · intro args imps h i hi
    cases hp : swcProcessImportArguments pack treeType relativePath args with
    | error e => simp [swcVisit, swcVisitCallExpression, Except.map, hp] at h
    | ok j =>
      simp [swcVisit, swcVisitCallExpression, Except.map, hp] at h
      subst h
      simp at hi
      subst hi
      exact swcProcessImportArguments_isDynamic _ _ _ _ _ hp
  · intro value args hvalue
    simp [swcVisit, swcVisitCallExpression, hvalue]

/-- Witness for C1 at concrete calls of both backends. -/
theorem callForm_isDynamic_by_backend_witness :
    ∀ i ∈ [Import.literal "x" "sample.js" babelPack true none], i.isDynamic = true :=
  (callForm_isDynamic_by_backend babelPack none "sample.js").1
    [.stringLiteral "x"] [Import.literal "x" "sample.js" babelPack true none] rfl

/-- Bind on an ok value reduces to the continuation. -/
theorem except_bind_ok {ε α β : Type} (a : α) (f : α → Except ε β) :
    (Except.ok a >>= f) = f a := rfl

/-- Bind on an error short-circuits. -/
theorem except_bind_error {ε α β : Type} (e : ε) (f : α → Except ε β) :
    ((Except.error e : Except ε α) >>= f) = Except.error e := rfl

/-- C5: a string-literal argument yields a Literal Import with the literal
value as specifier; a template literal with zero interpolations yields a
Literal Import whose specifier is the sole segment; a template literal
with at least one interpolation yields a Template Import whose
cookedQuasis are the segments in order and whose hints are the identifier
names of bare-identifier interpolations and absent otherwise — under both
backends. -/
theorem callArgument_extraction_rules (pack : Package) (treeType : Option TreeType)
    (relativePath : String) (isDynamic : Bool) :
    (∀ value : String,
      processImportCallExpression pack treeType relativePath [.stringLiteral value] isDynamic
        = .ok (.literal value relativePath pack isDynamic treeType))
    ∧ (∀ q : String,
      processImportCallExpression pack treeType relativePath
          [.templateLiteral [q] []] isDynamic
        = .ok (.literal q relativePath pack isDynamic treeType))
    ∧ (∀ (quasis : List String) (exprs : List BExpr), exprs ≠ [] →
        quasis.length = exprs.length + 1 →
      processImportCallExpression pack treeType relativePath
          [.templateLiteral quasis exprs] isDynamic
        = .ok (.template quasis (exprs.map inferNameHint) relativePath pack isDynamic treeType))
    ∧ (∀ n : String, inferNameHint (.identifier n) = some n)
    ∧ (∀ e : BExpr, (∀ n, e ≠ .identifier n) → inferNameHint e = none)
    ∧ (∀ value : String,
      swcProcessImportArguments pack treeType relativePath [.stringLiteral value]
        = .ok (.literal value relativePath pack true treeType))
    ∧ (∀ q : String,
      swcProcessImportArguments pack treeType relativePath [.templateLiteral [q] []]
        = .ok (.literal q relativePath pack true treeType))
    ∧ (∀ (quasis : List String) (exprs : List SwcExpr), exprs ≠ [] →
        quasis.length = exprs.length + 1 →
      swcProcessImportArguments pack treeType relativePath [.templateLiteral quasis exprs]
        = .ok (.template quasis (exprs.map swcInferNameHint) relativePath pack true treeType))
    ∧ (∀ v : String, swcInferNameHint (.identifier v) = some v)
    ∧ (∀ e : SwcExpr, (∀ v, e ≠ .identifier v) → swcInferNameHint e = none) := by
  refine ⟨fun _ => rfl, fun _ => rfl, ?_, fun _ => rfl, ?_, fun _ => rfl, fun _ => rfl, ?_,
    fun _ => rfl, ?_⟩
  · intro quasis exprs hne hlen
    have hq : ¬ quasis.length = 1 := by
      cases exprs with
      | nil => exact absurd rfl hne
      | cons e es => simp at hlen; omega
    simp [processImportCallExpression, hq]
  · intro e he
    cases e with
    | identifier n => exact absurd rfl (he n)
    | stringLiteral v => rfl
    | templateLiteral q es => rfl
    | otherExpr => rfl
  · intro quasis exprs hne hlen
    have hq : ¬ quasis.length = 1 := by
      cases exprs with
      | nil => exact absurd rfl hne
      | cons e es => simp at hlen; omega
    simp [swcProcessImportArguments, hq]
  · intro e he
    cases e with
    | identifier v => exact absurd rfl (he v)
    | stringLiteral v => rfl
    | templateLiteral q es => rfl
    | otherExpr => rfl

/-- Witness for C5: an interpolated template argument at a concrete input. -/
theorem callArgument_extraction_rules_witness :
    processImportCallExpression babelPack none "sample.js"
        [.templateLiteral ["bar-", ""] [.identifier "x"]] true
      = .ok (.template ["bar-", ""] ([BExpr.identifier "x"].map inferNameHint)
          "sample.js" babelPack true none) :=
  (callArgument_extraction_rules babelPack none "sample.js" true).2.2.1
    ["bar-", ""] [.identifier "x"] (by simp) rfl

/-- C6 counterexample: extraction of a non-literal call argument throws an
error whose message is the message in the code, which is not the message
quoted in the claim. -/
theorem importCall_usage_message_text :
    processImportCallExpression babelPack none "sample.js" [.otherExpr] true
      = .error { name := "Error", message :=
          "import() is only allowed to contain string literals or template string literals" }
    ∧ "import() is only allowed to contain string literals or template string literals"
        ≠ "import() only accepts string or template-string literals" :=
  ⟨rfl, by decide⟩

/-- C6 (amended): a call-form import whose argument is neither a string
literal nor a template literal fails with the usage error whose message
reads "import() is only allowed to contain string literals or template
string literals"; the error propagates through parseImports and aborts
updateImports for that file (no ok state is produced, so the store keeps
its previous entry), and the swc backend throws the same error. -/
theorem importCall_rejects_other_argument_shapes (pack : Package) (treeType : Option TreeType)
    (relativePath : String) (arg : BExpr) (isDynamic : Bool)
    (hs : ∀ v, arg ≠ .stringLiteral v)
    (ht : ∀ quasis exprs, arg ≠ .templateLiteral quasis exprs) :
    processImportCallExpression pack treeType relativePath [arg] isDynamic
      = .error importCallUsageError
    ∧ (∀ (parse : ParseFn) (s : AnalyzerState) (source : String),
        pack.useSwcParser = false →
        parse source = .ok (.babel [.callExpression .importKeyword [arg]]) →
        updateImports pack treeType parse s relativePath source
          = .error importCallUsageError)
    ∧ (∀ argS : SwcExpr, (∀ v, argS ≠ .stringLiteral v) →
        (∀ quasis exprs, argS ≠ .templateLiteral quasis exprs) →
        swcProcessImportArguments pack treeType relativePath [argS]
          = .error importCallUsageError) := by
  have h1 : processImportCallExpression pack treeType relativePath [arg] isDynamic
      = .error importCallUsageError := by
    cases arg with
    | identifier n => rfl
    | otherExpr => rfl
    | stringLiteral v => exact absurd rfl (hs v)
    | templateLiteral q es => exact absurd rfl (ht q es)
  have h1t : processImportCallExpression pack treeType relativePath [arg] true
      = .error importCallUsageError := by
    cases arg with
    | identifier n => rfl
    | otherExpr => rfl
    | stringLiteral v => exact absurd rfl (hs v)
    | templateLiteral q es => exact absurd rfl (ht q es)
  refine ⟨h1, ?_, ?_⟩
  · intro parse s source hswc hparse
    have hp : parseImports pack treeType parse relativePath source
        = .error importCallUsageError := by
      simp [parseImports, hparse, hswc, babelExtractFile, babelVisitList, babelVisit,
        Ast.asBabelFile, h1t, Except.map, except_bind_error]
    simp [updateImports, hp]
  · intro argS hsS htS
    cases argS with
    | identifier v => rfl
    | otherExpr => rfl
    | stringLiteral v => exact absurd rfl (hsS v)
    | templateLiteral q es => exact absurd rfl (htS q es)

/-- Witness for C6 at a concrete non-literal argument. -/
theorem importCall_rejects_other_argument_shapes_witness :
    processImportCallExpression babelPack none "sample.js" [.otherExpr] false
      = .error importCallUsageError :=
  (importCall_rejects_other_argument_shapes babelPack none "sample.js" .otherExpr false
    (fun _ h => BExpr.noConfusion h) (fun _ _ h => BExpr.noConfusion h)).1

/-- C7: under both backends an import declaration yields exactly one
non-dynamic Literal Import carrying the declared module specifier; a named
re-export declaration yields the same record exactly when it declares a
source module, and a re-export without a source yields no record. -/
theorem declaration_extraction (pack : Package) (treeType : Option TreeType)
    (relativePath : String) :
    (∀ source : String, babelVisit pack treeType relativePath (.importDeclaration source)
      = .ok [.literal source relativePath pack false treeType])
    ∧ (∀ source : String, babelVisit pack treeType relativePath
        (.exportNamedDeclaration (some source))
      = .ok [.literal source relativePath pack false treeType])
    ∧ babelVisit pack treeType relativePath (.exportNamedDeclaration none) = .ok []
    ∧ (∀ source : String, swcVisit pack treeType relativePath (.importDeclaration source)
      = .ok [.literal source relativePath pack false treeType])
    ∧ (∀ source : String, swcVisit pack treeType relativePath
        (.exportNamedDeclaration (some source))
      = .ok [.literal source relativePath pack false treeType])
    ∧ swcVisit pack treeType relativePath (.exportNamedDeclaration none) = .ok [] :=
  ⟨fun _ => rfl, fun _ => rfl, rfl, fun _ => rfl, fun _ => rfl, rfl⟩

/-! ### Shape invariant of extracted records (claim C9). -/

/-- A record built by `processImportCallExpression` from a well-formed
argument list satisfies the template shape invariant. -/
theorem processImportCallExpression_shapeOk (pack : Package) (treeType : Option TreeType)
    (relativePath : String) (args : List BExpr) (d : Bool) (i : Import)
    (hwf : args.all wfArgument = true)
    (h : processImportCallExpression pack treeType relativePath args d = .ok i) :
    templateShapeOk i = true := by
  cases args with
  | nil => simp [processImportCallExpression] at h
  | cons argument rest =>
    cases argument with
    | identifier n => simp [processImportCallExpression] at h
    | otherExpr => simp [processImportCallExpression] at h
    | stringLiteral v =>
      simp only [processImportCallExpression, Except.ok.injEq] at h
      subst h; rfl
    | templateLiteral quasis exprs =>
      simp only [List.all_cons, Bool.and_eq_true, wfArgument, beq_iff_eq] at hwf
      simp only [processImportCallExpression] at h
      split at h
      · simp only [Except.ok.injEq] at h
        subst h; rfl
      · simp only [Except.ok.injEq] at h
        subst h
        simp only [templateShapeOk, List.length_map, beq_iff_eq]
        exact hwf.1

/-- A record built by the swc call-argument processing from a well-formed
argument list satisfies the template shape invariant. -/
theorem swcProcessImportArguments_shapeOk (pack : Package) (treeType : Option TreeType)
    (relativePath : String) (args : List SwcExpr) (i : Import)
    (hwf : args.all wfSwcArgument = true)
    (h : swcProcessImportArguments pack treeType relativePath args = .ok i) :
    templateShapeOk i = true := by
  cases args with
  | nil => simp [swcProcessImportArguments] at h
  | cons argument rest =>
    cases argument with
    | identifier v => simp [swcProcessImportArguments] at h
    | otherExpr => simp [swcProcessImportArguments] at h
    | stringLiteral v =>
      simp only [swcProcessImportArguments, Except.ok.injEq] at h
      subst h; rfl
    | templateLiteral quasis exprs =>
      simp only [List.all_cons, Bool.and_eq_true, wfSwcArgument, beq_iff_eq] at hwf
      simp only [swcProcessImportArguments] at h
      split at h
      · simp only [Except.ok.injEq] at h
        subst h; rfl
      · simp only [Except.ok.injEq] at h
        subst h
        simp only [templateShapeOk, List.length_map, beq_iff_eq]
        exact hwf.1

mutual

/-- Every record produced by the babel visit of a well-formed node
satisfies the template shape invariant. -/
theorem babelVisit_shapeOk (pack : Package) (treeType : Option TreeType)
    (relativePath : String) (n : BabelNode) (hwf : wfBabelNode n = true)
    (imps : List Import) (h : babelVisit pack treeType relativePath n = .ok imps) :
    ∀ i ∈ imps, templateShapeOk i = true := by
  cases n with
  | callExpression callee args =>
    cases callee with
    | importKeyword =>
      cases hp : processImportCallExpression pack treeType relativePath args true with
      | error e => simp [babelVisit, Except.map, hp] at h
      | ok j =>
        simp [babelVisit, Except.map, hp] at h
        subst h
        intro i hi
        simp at hi
        subst hi
        exact processImportCallExpression_shapeOk pack treeType relativePath args true i
          (by simpa [wfBabelNode] using hwf) hp
    | identifier name refs =>
      cases refs with
      | false =>
        simp [babelVisit] at h
        subst h
        intro i hi
        simp at hi
      | true =>
        cases hp : processImportCallExpression pack treeType relativePath args false with
        | error e => simp [babelVisit, Except.map, hp] at h
        | ok j =>
          simp [babelVisit, Except.map, hp] at h
          subst h
          intro i hi
          simp at hi
          subst hi
          exact processImportCallExpression_shapeOk pack treeType relativePath args false i
            (by simpa [wfBabelNode] using hwf) hp
    | otherCallee =>
      simp [babelVisit] at h
      subst h
      intro i hi
      simp at hi
  | importDeclaration source =>
    simp [babelVisit] at h
    subst h
    intro i hi
    simp at hi
    subst hi
    rfl
  | exportNamedDeclaration source =>
    cases source with
    | some src =>
      simp [babelVisit] at h
      subst h
      intro i hi
      simp at hi
      subst hi
      rfl
    | none =>
      simp [babelVisit] at h
      subst h
      intro i hi
      simp at hi
  | otherNode children =>
    exact babelVisitList_shapeOk pack treeType relativePath children
      (by simpa [wfBabelNode] using hwf) imps (by simpa [babelVisit] using h)

/-- Every record produced by the babel visit of a well-formed node list
satisfies the template shape invariant. -/
theorem babelVisitList_shapeOk (pack : Package) (treeType : Option TreeType)
    (relativePath : String) (ns : List BabelNode) (hwf : wfBabelNodes ns = true)
    (imps : List Import) (h : babelVisitList pack treeType relativePath ns = .ok imps) :
    ∀ i ∈ imps, templateShapeOk i = true := by
  cases ns with
  | nil =>
    simp [babelVisitList] at h
    subst h
    intro i hi
    simp at hi
  | cons n rest =>
    simp only [wfBabelNodes, Bool.and_eq_true] at hwf
    cases ha : babelVisit pack treeType relativePath n with
    | error e => simp [babelVisitList, ha, except_bind_error] at h
    | ok a =>
      cases hb : babelVisitList pack treeType relativePath rest with
      | error e => simp [babelVisitList, ha, hb, except_bind_ok, except_bind_error] at h
      | ok b =>
        simp only [babelVisitList, ha, hb, except_bind_ok, Except.ok.injEq] at h
        subst h
        intro i hi
        rcases List.mem_append.mp hi with h1 | h2
        · exact babelVisit_shapeOk pack treeType relativePath n hwf.1 a ha i h1
        · exact babelVisitList_shapeOk pack treeType relativePath rest hwf.2 b hb i h2

end

mutual

/-- Every record produced by the swc visit of a well-formed node satisfies
the template shape invariant. -/
theorem swcVisit_shapeOk (pack : Package) (treeType : Option TreeType)
    (relativePath : String) (n : SwcNode) (hwf : wfSwcNode n = true)
    (imps : List Import) (h : swcVisit pack treeType relativePath n = .ok imps) :
    ∀ i ∈ imps, templateShapeOk i = true := by
  cases n with
  | callExpression callee args =>
    have hwf2 : wfSwcCallee callee = true ∧ args.all wfSwcArgument = true := by
      simpa [wfSwcNode, Bool.and_eq_true] using hwf
    cases callee with
    | identifier value =>
      by_cases hv : value = "import"
      · subst hv
        cases hp : swcProcessImportArguments pack treeType relativePath args with
        | error e => simp [swcVisit, swcVisitCallExpression, Except.map, hp] at h
        | ok j =>
          simp [swcVisit, swcVisitCallExpression, Except.map, hp] at h
          subst h
          intro i hi
          simp at hi
          subst hi
          exact swcProcessImportArguments_shapeOk pack treeType relativePath args i hwf2.2 hp
      · simp [swcVisit, swcVisitCallExpression, hv] at h
        subst h
        intro i hi
        simp at hi
    | memberExpression objectCalleeValue objectArguments =>
      by_cases hv : objectCalleeValue = some "import"
      · cases hp : swcProcessImportArguments pack treeType relativePath objectArguments with
        | error e => simp [swcVisit, swcVisitCallExpression, hv, Except.map, hp] at h
        | ok j =>
          simp [swcVisit, swcVisitCallExpression, hv, Except.map, hp] at h
          subst h
          intro i hi
          simp at hi
          subst hi
          exact swcProcessImportArguments_shapeOk pack treeType relativePath objectArguments i
            (by simpa [wfSwcCallee] using hwf2.1) hp
      · simp [swcVisit, swcVisitCallExpression, hv] at h
        subst h
        intro i hi
        simp at hi
    | otherCallee =>
      simp [swcVisit, swcVisitCallExpression] at h
      subst h
      intro i hi
      simp at hi
  | importDeclaration source =>
    simp [swcVisit] at h
    subst h
    intro i hi
    simp at hi
    subst hi
    rfl
  | exportNamedDeclaration source =>
    cases source with
    | some src =>
      simp [swcVisit] at h
      subst h
      intro i hi
      simp at hi
      subst hi
      rfl
    | none =>
      simp [swcVisit] at h
      subst h
      intro i hi
      simp at hi
  | otherNode children =>
    exact swcVisitList_shapeOk pack treeType relativePath children
      (by simpa [wfSwcNode] using hwf) imps (by simpa [swcVisit] using h)

/-- Every record produced by the swc visit of a well-formed node list
satisfies the template shape invariant. -/
theorem swcVisitList_shapeOk (pack : Package) (treeType : Option TreeType)
    (relativePath : String) (ns : List SwcNode) (hwf : wfSwcNodes ns = true)
    (imps : List Import) (h : swcVisitList pack treeType relativePath ns = .ok imps) :
    ∀ i ∈ imps, templateShapeOk i = true := by
  cases ns with
  | nil =>
    simp [swcVisitList] at h
    subst h
    intro i hi
    simp at hi
  | cons n rest =>
    simp only [wfSwcNodes, Bool.and_eq_true] at hwf
    cases ha : swcVisit pack treeType relativePath n with
    | error e => simp [swcVisitList, ha, except_bind_error] at h
    | ok a =>
      cases hb : swcVisitList pack treeType relativePath rest with
      | error e => simp [swcVisitList, ha, hb, except_bind_ok, except_bind_error] at h
      | ok b =>
        simp only [swcVisitList, ha, hb, except_bind_ok, Except.ok.injEq] at h
        subst h
        intro i hi
        rcases List.mem_append.mp hi with h1 | h2
        · exact swcVisit_shapeOk pack treeType relativePath n hwf.1 a ha i h1
        · exact swcVisitList_shapeOk pack treeType relativePath rest hwf.2 b hb i h2

end

/-- C9: on parser-produced (well-formed) ASTs, every Template Import
record produced by extraction under either backend satisfies
`cookedQuasis.length = expressionNameHints.length + 1`, and every Import
record is exactly one of the two variants. -/
theorem extraction_record_shape :
    (∀ (pack : Package) (treeType : Option TreeType) (relativePath : String)
        (file : List BabelNode) (imps : List Import),
      wfBabelNodes file = true →
      babelExtractFile pack treeType relativePath file = .ok imps →
      ∀ i ∈ imps, templateShapeOk i = true)
    ∧ (∀ (pack : Package) (treeType : Option TreeType) (relativePath : String)
        (program : List SwcNode) (imps : List Import),
      wfSwcNodes program = true →
      swcExtractProgram pack treeType relativePath program = .ok imps →
      ∀ i ∈ imps, templateShapeOk i = true)
    ∧ (∀ i : Import, i.isLiteralVariant = !i.isTemplateVariant) := by
  refine ⟨?_, ?_, ?_⟩
  · intro pack treeType relativePath file imps hwf h
    exact babelVisitList_shapeOk pack treeType relativePath file hwf imps h
  · intro pack treeType relativePath program imps hwf h
    exact swcVisitList_shapeOk pack treeType relativePath program hwf imps h
  · intro i
    cases i <;> rfl

/-- Witness for C9 at a concrete file holding an interpolated dynamic
import. -/
theorem extraction_record_shape_witness :
    ∀ i ∈ [Import.template ["bar-", ""] [some "x"] "sample.js" babelPack true none],
      templateShapeOk i = true :=
  extraction_record_shape.1 babelPack none "sample.js"
    [.callExpression .importKeyword [.templateLiteral ["bar-", ""] [.identifier "x"]]]
    [Import.template ["bar-", ""] [some "x"] "sample.js" babelPack true none]
    (by decide) rfl

/-- Concatenation of strings is associative (proved via the list model). -/
theorem stringAppendAssoc (a b c : String) : a ++ b ++ c = a ++ (b ++ c) := by
  apply String.ext
  simp [String.data_append, List.append_assoc]

/-- C10: selecting the babel backend with a major version other than 7
makes `setupParser` throw a configuration error whose message names both
the version number and the owning package, and installs no parse
function. -/
theorem setupParser_unsupported_version (pack : Package) (swcParse babelParse : ParseFn)
    (hswc : pack.useSwcParser = false) (hver : pack.babelMajorVersion ≠ 7) :
    setupParser pack swcParse babelParse none
      = .error { name := "Error", message := babelVersionErrorMessage pack }
    ∧ (∃ a b : String,
        babelVersionErrorMessage pack = a ++ toString pack.babelMajorVersion ++ b)
    ∧ (∃ a b : String, babelVersionErrorMessage pack = a ++ pack.name ++ b)
    ∧ ∀ installed : Option ParseFn,
        setupParser pack swcParse babelParse none ≠ .ok installed := by
  have hsetup : setupParser pack swcParse babelParse none
      = .error { name := "Error", message := babelVersionErrorMessage pack } := by
    simp [setupParser, hswc, hver]
  refine ⟨hsetup, ?_, ?_, ?_⟩
  · refine ⟨"don\x27t know how to setup a parser for Babel version ",
      " (used by " ++ pack.name ++ ")", ?_⟩
    simp [babelVersionErrorMessage, stringAppendAssoc]
  · exact ⟨"don\x27t know how to setup a parser for Babel version " ++
      toString pack.babelMajorVersion ++ " (used by ", ")", rfl⟩
  · intro installed
    rw [hsetup]
    exact fun he => Except.noConfusion he

/-- Witness for C10 at babel major version 6. -/
theorem setupParser_unsupported_version_witness :
    setupParser babel6Pack emptyBabelParse emptyBabelParse none
      = .error { name := "Error", message := babelVersionErrorMessage babel6Pack }
    ∧ (∃ a b : String,
        babelVersionErrorMessage babel6Pack = a ++ toString babel6Pack.babelMajorVersion ++ b)
    ∧ (∃ a b : String, babelVersionErrorMessage babel6Pack = a ++ babel6Pack.name ++ b)
    ∧ ∀ installed : Option ParseFn,
        setupParser babel6Pack emptyBabelParse emptyBabelParse none ≠ .ok installed :=
  setupParser_unsupported_version babel6Pack emptyBabelParse emptyBabelParse rfl (by decide)

end EmberAutoImport
